import Mathlib

/-!
Verification of the NewMidnight gateway core against its natural-language
specification.  The definitions below are shallow embeddings of the
TypeScript sources: the OpenRouter model resolver
(src/shared/key-management/openrouter/model-resolver.ts), the OpenRouter
key provider (src/shared/key-management/openrouter/provider.ts), the
OpenRouter key checker (checker.ts), the Google-AI request transformer and
schema (googleai transformer module), and the OpenAI-to-Anthropic response
transformer (openrouter router module).  JavaScript numbers are embedded
as Int (the program only compares, subtracts and takes maxima, so ordered
integer arithmetic is a faithful abstraction of the float values used by
the code), and JavaScript falsiness of strings (the empty string is falsy)
is made explicit where the code relies on it.  String primitives are
re-expressed over the underlying character lists so that every definition
evaluates by kernel reduction.
-/

deriving instance DecidableEq for Except

namespace NewMidnight

/-- JavaScript string disjunction: `a || b` where the empty string is falsy. -/
def jsOr (a b : String) : String :=
  if a = "" then b else a

/-- Lowercasing, the embedding of `String.prototype.toLowerCase` (the
program only feeds it ASCII model ids and inputs). -/
def lowerStr (s : String) : String :=
  String.mk (s.data.map Char.toLower)

/-- Embedding of `String.prototype.startsWith`. -/
def strStartsWith (s pre : String) : Bool :=
  pre.data.isPrefixOf s.data

/-- Embedding of `String.prototype.endsWith`. -/
def strEndsWith (s suf : String) : Bool :=
  suf.data.isSuffixOf s.data

/-- Embedding of `String.prototype.trim`. -/
def trimStr (s : String) : String :=
  String.mk (((s.data.dropWhile Char.isWhitespace).reverse.dropWhile
    Char.isWhitespace).reverse)

/-- Embedding of `String.prototype.split` with a one-character separator. -/
def splitOnChar (sep : Char) : List Char → List (List Char)
  | [] => [[]]
  | c :: cs =>
    if c = sep then [] :: splitOnChar sep cs
    else
      match splitOnChar sep cs with
      | r :: rs => (c :: r) :: rs
      | [] => [[c]]

/-- Insertion-order deduplication with an accumulator of already seen
elements; `dedupFirstAux seen l` keeps the first occurrence of every
element of `l` that is not in `seen`.  This is the behavior of iterating a
JavaScript `Set`. -/
def dedupFirstAux {α : Type} [DecidableEq α] (seen : List α) : List α → List α
  | [] => []
  | a :: l => if a ∈ seen then dedupFirstAux seen l else a :: dedupFirstAux (a :: seen) l

/-- First-occurrence deduplication, the order-preserving semantics of
`Array.from(new Set(xs))` in JavaScript. -/
def dedupFirst {α : Type} [DecidableEq α] (l : List α) : List α :=
  dedupFirstAux [] l

/-- Test whether the character list `n` occurs as a contiguous sublist of
the second argument. -/
def listContainsSub (n : List Char) : List Char → Bool
  | [] => n.isEmpty
  | c :: cs => n.isPrefixOf (c :: cs) || listContainsSub n cs

/-- String containment test, embedding `haystack.includes(needle)`. -/
def containsSub (needle haystack : String) : Bool :=
  listContainsSub needle.data haystack.data

namespace Resolver

/-- Model metadata as produced by the whitelist generator
(whitelist-generator.ts): id, context window, optional max output, pricing
strings, supported parameter names and the moderation flag.  The
`default_params` record is omitted: it is an untyped JSON object that no
code path relevant to the claims reads. -/
structure ModelMetadata where
  id : String
  context : Int
  max_output : Option Int
  pricingInput : String
  pricingOutput : String
  supported_params : List String
  is_moderated : Bool
deriving DecidableEq, Repr

/-- Resolver policy configuration, from model-resolver.ts. -/
structure ResolveConfig where
  allowPaid : Bool
  allowModerated : Bool
deriving DecidableEq, Repr

/-- The `normalize` helper of model-resolver.ts: lowercase the string and
delete every dot, dash and slash. -/
def normalize (s : String) : String :=
  String.mk ((lowerStr s).data.filter (fun c => !(c = '.' || c = '-' || c = '/')))

/-- Embeds the regex test of the shape letter o followed by a digit, used
in the provider-shortcut table. -/
def startsWithODigit (s : String) : Bool :=
  match s.data with
  | 'o' :: d :: _ => d.isDigit
  | _ => false

/-- The ordered provider-shortcut table of model-resolver.ts: each entry
pairs a provider id segment with the test of its regex on the lowercased
input.  Object key insertion order is preserved, as in the source. -/
def shortcutTable : List (String × (String → Bool)) :=
  [ ("openai/", fun s => strStartsWith s "gpt" || strStartsWith s "codex" ||
      strStartsWith s "chatgpt" || startsWithODigit s),
    ("anthropic/", fun s => strStartsWith s "claude"),
    ("google/", fun s => strStartsWith s "gemini" || strStartsWith s "gemma"),
    ("x-ai/", fun s => strStartsWith s "grok"),
    ("deepseek/", fun s => strStartsWith s "deepseek"),
    ("mistralai/", fun s => strStartsWith s "mistral"),
    ("z-ai/", fun s => strStartsWith s "glm"),
    ("amazon/", fun s => strStartsWith s "nova"),
    ("moonshotai/", fun s => strStartsWith s "kimi"),
    ("qwen/", fun s => containsSub "qwen" s || containsSub "qwq" s) ]

/-- Provider-segment detection of model-resolver.ts: the first shortcut
whose regex matches the lowercased input; failing that, an input containing
the substring banana maps to the google segment; otherwise none. -/
def detectPfx (inputLow : String) : Option String :=
  match shortcutTable.find? (fun p => p.2 inputLow) with
  | some p => some p.1
  | none => if containsSub "banana" inputLow then some "google/" else none

/-- The second component of `id.split('/')`, i.e. the model name after the
provider segment.  Catalogued OpenRouter ids always contain a slash; on an
id without one the JavaScript code would read `undefined` and throw, so the
embedding is only consulted on slash-containing ids. -/
def suffix1 (id : String) : String :=
  match splitOnChar '/' id.data with
  | _ :: n :: _ => String.mk n
  | _ => ""

/-- The candidate filter of model-resolver.ts: respect the detected
provider segment if any, then accept when the name after the slash equals
or contains the lowercased input, or equals it after normalization. -/
def isCandidate (pfx : Option String) (inputLow : String) (m : ModelMetadata) : Bool :=
  (match pfx with
   | some p => strStartsWith m.id p
   | none => true) &&
  (let name := suffix1 (lowerStr m.id)
   name == inputLow || containsSub inputLow name || normalize name == normalize inputLow)

/-- The fuzzy candidate set built in step 2 of `resolveModel`. -/
def fuzzyCandidates (userInput : String) (wl : List (List ModelMetadata)) :
    List ModelMetadata :=
  let inputLow := lowerStr userInput
  wl.flatten.filter (isCandidate (detectPfx inputLow) inputLow)

/-- The tiebreak of `resolveModel`: first a candidate whose name after the
slash equals the input exactly (case-insensitively), else a candidate whose
normalized name equals the normalized input. -/
def fuzzyBest (userInput : String) (wl : List (List ModelMetadata)) :
    Option ModelMetadata :=
  let inputLow := lowerStr userInput
  let cands := fuzzyCandidates userInput wl
  match cands.find? (fun m => lowerStr (suffix1 m.id) == inputLow) with
  | some m => some m
  | none => cands.find? (fun m => normalize (suffix1 m.id) == normalize inputLow)

/-- Step 3 of `resolveModel`, the policy check: a model is paid unless both
pricing strings are the literal zero string; a paid model under a policy
disallowing paid models is rejected with prohibit_paid, a moderated model
under a policy disallowing moderated models with prohibit_moderated. -/
def policyCheck (m : ModelMetadata) (cfg : ResolveConfig) :
    Option ModelMetadata × Option String :=
  let isPaid := m.pricingInput != "0" || m.pricingOutput != "0"
  if isPaid && !cfg.allowPaid then (none, some "prohibit_paid")
  else if m.is_moderated && !cfg.allowModerated then (none, some "prohibit_moderated")
  else (some m, none)

/-- The `resolveModel` function of model-resolver.ts.  The whitelist is a
family-indexed catalogue; flattening its value lists embeds
`Object.values(whitelist).flat()`.  Failure is reported in the second
component, exactly as the source returns a model-and-error pair. -/
def resolveModel (userInput : String) (wl : List (List ModelMetadata))
    (cfg : ResolveConfig) : Option ModelMetadata × Option String :=
  let allModels := wl.flatten
  let inputLow := lowerStr userInput
  match allModels.find? (fun m => lowerStr m.id == inputLow) with
  | some m => policyCheck m cfg
  | none =>
    match fuzzyBest userInput wl with
    | some m => policyCheck m cfg
    | none =>
      match fuzzyCandidates userInput wl with
      | [m] => policyCheck m cfg
      | _ => (none, some "not_found")

end Resolver

namespace Provider

/-- Spend tier of an OpenRouter credential (provider.ts). -/
inductive Tier
  | unlimited
  | limited
  | restricted
  | deadkey
deriving DecidableEq, Repr

/-- An OpenRouter credential with its mutable health and usage metadata
(interface OpenRouterKey in provider.ts).  The per-family token usage map
is omitted: no code path relevant to the claims reads it, and `get` does
not touch it. -/
structure OpenRouterKey where
  key : String
  hash : String
  isDisabled : Bool
  isRevoked : Bool
  promptCount : Int
  lastUsed : Int
  rateLimitedAt : Int
  rateLimitedUntil : Int
  lastChecked : Int
  isFreeTier : Bool
  balance : Int
  creditLimit : Option Int
  usage : Int
  rpm : Int
  tier : Tier
deriving DecidableEq, Repr

/-- The reuse delay constant KEY_REUSE_DELAY of provider.ts. -/
def KEY_REUSE_DELAY : Int := 500

/-- The rate limit lockout constant RATE_LIMIT_LOCKOUT of provider.ts. -/
def RATE_LIMIT_LOCKOUT : Int := 2000

/-- The paid-model credential filter of `OpenRouterKeyProvider.get`:
reject dead keys, accept a positive balance, accept the unlimited tier
even at zero balance, reject everything else. -/
def paidKeyFilter (k : OpenRouterKey) : Bool :=
  if k.tier = Tier.deadkey then false
  else if k.balance > 0 then true
  else if k.tier = Tier.unlimited then true
  else false

/-- Stable insertion into a list ordered by ascending `lastUsed`. -/
def insertByLastUsed (k : OpenRouterKey) : List OpenRouterKey → List OpenRouterKey
  | [] => [k]
  | x :: xs =>
    if k.lastUsed ≤ x.lastUsed then k :: x :: xs else x :: insertByLastUsed k xs

/-- Insertion sort by ascending `lastUsed` (oldest used first). -/
def sortByLastUsed : List OpenRouterKey → List OpenRouterKey
  | [] => []
  | x :: xs => insertByLastUsed x (sortByLastUsed xs)

/-- Modelled from the spec: the priority ordering `prioritizeKeys` lives in
shared/key-management/prioritize-keys.ts, which is not among the provided
sources.  The spec describes it as an external oldest-used-first,
rate-limit-aware ordering over the retained set from which the first
result is taken.  Keys whose rate-limit window has passed come first, each
group ordered by ascending `lastUsed`.  The theorems below use only that
its output is drawn from its input. -/
def prioritizeKeys (now : Int) (ks : List OpenRouterKey) : List OpenRouterKey :=
  sortByLastUsed (ks.filter (fun k => decide (k.rateLimitedUntil ≤ now))) ++
    sortByLastUsed (ks.filter (fun k => decide (now < k.rateLimitedUntil)))

/-- The two side effects `get` applies to the chosen credential before
returning a copy of it: record `lastUsed = now` and raise
`rateLimitedUntil` to at least `now + KEY_REUSE_DELAY` (the `throttle`
method).  All other fields are copied unchanged. -/
def touchKey (now : Int) (k : OpenRouterKey) : OpenRouterKey :=
  { k with lastUsed := now,
           rateLimitedUntil := max k.rateLimitedUntil (now + KEY_REUSE_DELAY) }

/-- Store update performed by `get`: the credential whose hash matches the
selected one receives the two `touchKey` effects, every other credential is
left untouched.  The JavaScript code mutates the selected array element in
place and `throttle` looks it up by hash; with pairwise distinct hashes
(the keys are built from a deduplicated secret list) this is exactly the
by-hash map below. -/
def applyGetEffects (now : Int) (selHash : String) (keys : List OpenRouterKey) :
    List OpenRouterKey :=
  keys.map (fun k => if k.hash = selHash then touchKey now k else k)

/-- The `OpenRouterKeyProvider.get` method of provider.ts.  Errors are the
thrown PaymentRequiredError messages; an empty pool after the free-model
filter would make the JavaScript code dereference an undefined selected
key, reported here as a TypeError.  On success the returned pair carries
the copy handed to the caller (already reflecting both side effects) and
the updated store. -/
def get (now : Int) (model : String) (keys : List OpenRouterKey) :
    Except String (OpenRouterKey × List OpenRouterKey) :=
  let availableKeys := keys.filter (fun k => !k.isDisabled && !k.isRevoked)
  if availableKeys.isEmpty then Except.error "No OpenRouter keys available." else
  let isFreeModel := strEndsWith model ":free"
  if isFreeModel then
    match prioritizeKeys now (availableKeys.filter (fun k => decide (k.tier ≠ Tier.deadkey))) with
    | [] => Except.error "TypeError"
    | sel :: _ => Except.ok (touchKey now sel, applyGetEffects now sel.hash keys)
  else
    let paidKeys := availableKeys.filter paidKeyFilter
    if paidKeys.isEmpty then Except.error "No paid OpenRouter keys available." else
    match prioritizeKeys now paidKeys with
    | [] => Except.error "TypeError"
    | sel :: _ => Except.ok (touchKey now sel, applyGetEffects now sel.hash keys)

end Provider

namespace Checker

open Provider

/-- The limit-reached test of `OpenRouterKeyChecker.testKeyOrFail`:
a credit limit is present and the reported usage has reached it. -/
def limitReached (limit : Option Int) (usage : Int) : Bool :=
  match limit with
  | some l => decide (usage ≥ l)
  | none => false

/-- Balance resolution of `testKeyOrFail`: a fulfilled credits lookup
yields its parsed total (a missing field parses to zero upstream of this
point); a failed lookup degrades to `max 0 (limit - usage)` when a credit
limit is known and to the sentinel 999 otherwise. -/
def probeBalance (creditsResult : Option Int) (limit : Option Int) (usage : Int) : Int :=
  match creditsResult with
  | some b => b
  | none =>
    match limit with
    | some l => max 0 (l - usage)
    | none => 999

/-- Tier derivation of `testKeyOrFail`, evaluated in source order:
limit reached gives deadkey; else a positive balance gives unlimited on a
null credit limit and limited otherwise; else a free-tier flag gives
restricted; else deadkey. -/
def probeTier (limit : Option Int) (usage balance : Int) (isFreeTier : Bool) : Tier :=
  if limitReached limit usage then Tier.deadkey
  else if balance > 0 then
    match limit with
    | none => Tier.unlimited
    | some _ => Tier.limited
  else if isFreeTier then Tier.restricted
  else Tier.deadkey

/-- The successful-probe update of `OpenRouterKeyChecker.testKeyOrFail`
applied through `OpenRouterKeyProvider.update` (which also stamps
`lastChecked`).  Inputs are the values parsed from the authorization
lookup (usage, limit, free-tier flag, rpm) and the optional result of the
credits lookup; the update writes the fetched fields, the derived tier,
`isDisabled = (tier == deadkey)` and clears `isRevoked`. -/
def testKeySuccess (now : Int) (key : OpenRouterKey) (usage : Int)
    (limit : Option Int) (isFreeTier : Bool) (rpm : Int)
    (creditsResult : Option Int) : OpenRouterKey :=
  let balance := probeBalance creditsResult limit usage
  let tier := probeTier limit usage balance isFreeTier
  { key with
    isFreeTier := isFreeTier,
    balance := balance,
    creditLimit := limit,
    usage := usage,
    rpm := rpm,
    tier := tier,
    isDisabled := decide (tier = Tier.deadkey),
    isRevoked := false,
    lastChecked := now }

/-- The 401 branch of `OpenRouterKeyChecker.handleAxiosError`: disable,
revoke and mark deadkey (with the `lastChecked` stamp of `update`). -/
def handle401 (now : Int) (key : OpenRouterKey) : OpenRouterKey :=
  { key with isDisabled := true, isRevoked := true, tier := Tier.deadkey,
             lastChecked := now }

/-- The 402 branch of `OpenRouterKeyChecker.handleAxiosError`: disable,
mark deadkey and zero the balance (with the `lastChecked` stamp of
`update`).  Any other failure shape performs no update at all. -/
def handle402 (now : Int) (key : OpenRouterKey) : OpenRouterKey :=
  { key with isDisabled := true, tier := Tier.deadkey, balance := 0,
             lastChecked := now }

end Checker

namespace GoogleTransform

/-- Role of a canonical (OpenAI-shaped) chat message. -/
inductive OAIRole
  | system
  | user
  | assistant
deriving DecidableEq, Repr

/-- A canonical chat message as consumed by `transformOpenAIToGoogleAI`
after schema validation: role, optional explicit name field, and the
message content already flattened to plain text (the flattening helper
lives in the openai transformer module and touches no state the claims
depend on). -/
structure OAIMessage where
  role : OAIRole
  name : Option String
  text : String
deriving DecidableEq, Repr

/-- Lazy match of the leading name pattern, embedding the regex of
`transformOpenAIToGoogleAI`: a shortest prefix of at most 50 characters
not crossing a line break, followed by the two characters colon and
space; the captured group is that prefix.  The fuel argument counts the
characters the lazy group may still consume. -/
def nameCaptureAux : Nat → List Char → List Char → Option (List Char)
  | _, acc, ':' :: ' ' :: _ => some acc.reverse
  | 0, _, _ => none
  | _ + 1, _, [] => none
  | fuel + 1, acc, c :: cs =>
    if c = '\n' || c = '\r' then none else nameCaptureAux fuel (c :: acc) cs

/-- The leading name pattern match on a message text. -/
def nameCapture (text : String) : Option String :=
  (nameCaptureAux 50 [] text.data).map (fun cs => String.mk cs)

/-- Name derivation of `transformOpenAIToGoogleAI`: the trimmed explicit
name field if nonempty, else the trimmed captured text name (suppressed
for system messages), else Character for assistant messages and User
otherwise.  The JavaScript falsy chain treats missing and empty strings
alike, which `jsOr` makes explicit. -/
def deriveName (m : OAIMessage) : String :=
  let propName := (m.name.map trimStr).getD ""
  let textName :=
    if m.role = OAIRole.system then ""
    else ((nameCapture m.text).map trimStr).getD ""
  jsOr propName (jsOr textName (if m.role = OAIRole.assistant then "Character" else "User"))

/-- The stop-sequence synthesis of `transformOpenAIToGoogleAI`: the
caller-supplied stop list (a lone string arrives as a one-element list),
followed by one synthesized entry per distinct derived name in message
order, then deduplicated preserving first occurrences and capped at five
entries. -/
def googleStopSequences (messages : List OAIMessage) (callerStop : List String) :
    List String :=
  let names := dedupFirst (messages.map deriveName)
  let stops := callerStop ++ names.map (fun n => "\n" ++ n ++ ":")
  (dedupFirst stops).take 5

/-- The maxOutputTokens pipeline of GoogleAIV1GenerateContentSchema: an
absent field defaults to 16, then the value is clamped from above to the
configured per-service maximum GOOGLEAI_OUTPUT_MAX
(config.maxOutputTokensGoogleAI, supplied here as a parameter since the
configuration module is external to the sources). -/
def parseMaxOutputTokens (raw : Option Int) (outputMax : Int) : Int :=
  min (raw.getD 16) outputMax

end GoogleTransform

namespace AnthropicTransform

/-- The message object inside one choice of a canonical (OpenAI-shaped)
completion response body, restricted to the fields
`transformOpenAIToAnthropicResponse` reads. -/
structure OAIChoiceMessage where
  content : Option String
  reasoning : Option String
  reasoning_content : Option String
deriving DecidableEq, Repr

/-- One choice of a canonical completion response body. -/
structure OAIChoice where
  finish_reason : Option String
  message : OAIChoiceMessage
deriving DecidableEq, Repr

/-- A canonical completion response body, restricted to the fields the
transformer reads; the token counters mirror `usage.prompt_tokens` and
`usage.completion_tokens` with absence encoded as none. -/
structure OAIResponseBody where
  id : Option String
  model : Option String
  choices : List OAIChoice
  usagePromptTokens : Option Int
  usageCompletionTokens : Option Int
deriving DecidableEq, Repr

/-- A content block of the produced Anthropic-shaped response. -/
inductive AnthropicBlock
  | thinking (thinking : String) (signature : String)
  | text (text : String)
deriving DecidableEq, Repr

/-- The Anthropic-shaped response produced by the transformer.  The id is
optional because the source copies the possibly absent body id verbatim on
the nonempty path. -/
structure AnthropicResponse where
  id : Option String
  content : List AnthropicBlock
  model : Option String
  stop_reason : String
  usageInput : Int
  usageOutput : Int
deriving DecidableEq, Repr

/-- The `transformOpenAIToAnthropicResponse` helper of the openrouter
router module.  A body without choices yields the explicit empty answer
with stop_reason error; otherwise the first choice is shaped into an
optional thinking block (from either reasoning field, empty strings being
falsy) followed by the text block, and the finish reason is remapped by
the sequence of reassignments of the source (written here as the
equivalent nested conditional, the conditions being mutually exclusive). -/
def transformOpenAIToAnthropicResponse (body : OAIResponseBody) : AnthropicResponse :=
  match body.choices with
  | [] =>
    { id := some (jsOr (body.id.getD "") "error"),
      content := [], model := body.model, stop_reason := "error",
      usageInput := 0, usageOutput := 0 }
  | choice :: _ =>
    let reasoning := jsOr (choice.message.reasoning.getD "")
      (choice.message.reasoning_content.getD "")
    let thinkingBlocks :=
      if reasoning = "" then []
      else [AnthropicBlock.thinking reasoning "openrouter-reasoning-signature"]
    let stopReason :=
      if choice.finish_reason = some "tool_calls" then "tool_use"
      else if choice.finish_reason = some "stop" then "end_turn"
      else if choice.finish_reason = some "length" then "max_tokens"
      else "end_turn"
    { id := body.id,
      content := thinkingBlocks ++ [AnthropicBlock.text (choice.message.content.getD "")],
      model := body.model,
      stop_reason := stopReason,
      usageInput := body.usagePromptTokens.getD 0,
      usageOutput := body.usageCompletionTokens.getD 0 }

/-- Transcribed from the spec for comparison with the source computation:
the fixed finish-reason table (length to max_tokens, stop to end_turn,
tool_calls to tool_use, every other or missing reason to end_turn). -/
def claimStopReasonTable (finishReason : Option String) : String :=
  if finishReason = some "length" then "max_tokens"
  else if finishReason = some "stop" then "end_turn"
  else if finishReason = some "tool_calls" then "tool_use"
  else "end_turn"

end AnthropicTransform

end NewMidnight

section fixtures
open NewMidnight Resolver

/-- Concrete catalogue entry used by the witnesses below. -/
def gpt4o : ModelMetadata :=
  { id := "openai/gpt-4o", context := 128000, max_output := some 16384,
    pricingInput := "0.0000025", pricingOutput := "0.00001",
    supported_params := [], is_moderated := false }

/-- Concrete free-tier catalogue entry used by the witnesses below. -/
def freeModel : ModelMetadata :=
  { id := "meta-llama/llama-3.1-8b-instruct:free", context := 131072, max_output := none,
    pricingInput := "0", pricingOutput := "0",
    supported_params := [], is_moderated := false }

/-- Default resolver policy used by the witnesses below. -/
def cfgDefault : ResolveConfig := { allowPaid := true, allowModerated := false }

example : resolveModel "gpt-4o" [[gpt4o, freeModel]]
    { allowPaid := true, allowModerated := false } = (some gpt4o, none) := by decide

example : resolveModel "gpt-4o" [[gpt4o, freeModel]]
    { allowPaid := false, allowModerated := false } = (none, some "prohibit_paid") := by decide

example : resolveModel "zzz" [[gpt4o, freeModel]]
    { allowPaid := true, allowModerated := false } = (none, some "not_found") := by decide

example : resolveModel "OPENAI/GPT-4O" [[gpt4o, freeModel]]
    { allowPaid := true, allowModerated := false } = (some gpt4o, none) := by decide

open NewMidnight.Provider NewMidnight.Checker

def k0 : OpenRouterKey :=
  { key := "sk-or-aaa", hash := "or-0001", isDisabled := false, isRevoked := false,
    promptCount := 0, lastUsed := 0, rateLimitedAt := 0, rateLimitedUntil := 0,
    lastChecked := 0, isFreeTier := true, balance := 0, creditLimit := some 0,
    usage := 0, rpm := 0, tier := Tier.restricted }

def k1 : OpenRouterKey :=
  { k0 with key := "sk-or-bbb", hash := "or-0002", balance := 7,
            tier := Tier.limited, creditLimit := some 10 }

example : (Provider.get 1000 "openai/gpt-4o" [k0, k1]).isOk = true := by decide

example :
    Provider.get 1000 "openai/gpt-4o" [k0, k1] =
      Except.ok ({ k1 with lastUsed := 1000, rateLimitedUntil := 1500 },
        [k0, { k1 with lastUsed := 1000, rateLimitedUntil := 1500 }]) := by decide

example : Provider.get 1000 "openai/gpt-4o" [k0] =
    Except.error "No paid OpenRouter keys available." := by decide

example : (testKeySuccess 5 k0 100 none true 0 none).tier = Tier.unlimited := by decide
example : (testKeySuccess 5 k0 100 none true 0 none).balance = 999 := by decide
example : (testKeySuccess 5 k0 3 (some 10) false 0 (some 5)).tier = Tier.limited := by decide
example : (testKeySuccess 5 k0 12 (some 10) false 0 (some 5)).tier = Tier.deadkey := by decide
example : (testKeySuccess 5 k0 12 (some 10) false 0 (some 5)).isDisabled = true := by decide

open NewMidnight.GoogleTransform NewMidnight.AnthropicTransform

def msgU : OAIMessage := { role := OAIRole.user, name := none, text := "hello there" }
def msgA : OAIMessage := { role := OAIRole.assistant, name := none, text := "hi" }
def msgN : OAIMessage := { role := OAIRole.user, name := none, text := "Alice: hi" }

example : deriveName msgU = "User" := by decide
example : deriveName msgA = "Character" := by decide
example : deriveName msgN = "Alice" := by decide
example : googleStopSequences [msgU, msgA] [] = ["\nUser:", "\nCharacter:"] := by decide
example : googleStopSequences [msgU, msgA, msgN] ["a", "b", "a"] =
    ["a", "b", "\nUser:", "\nCharacter:", "\nAlice:"] := by decide
example : googleStopSequences [msgU, msgA, msgN] ["a", "b", "c", "d"] =
    ["a", "b", "c", "d", "\nUser:"] := by decide

example : parseMaxOutputTokens none 1024 = 16 := by decide
example : parseMaxOutputTokens (some 5000) 1024 = 1024 := by decide

/-- Concrete response choice with finish reason length, for the witnesses. -/
def choiceLen : OAIChoice :=
  { finish_reason := some "length",
    message := { content := some "hi", reasoning := none, reasoning_content := none } }

/-- Concrete canonical response body with one choice, for the witnesses. -/
def bodyLen : OAIResponseBody :=
  { id := some "gen-1", model := some "openai/gpt-4o",
    choices := [choiceLen],
    usagePromptTokens := some 3, usageCompletionTokens := some 4 }

/-- Concrete canonical response body with no choices, for the C9
counterexample. -/
def bodyEmpty : OAIResponseBody :=
  { id := none, model := some "openai/gpt-4o", choices := [],
    usagePromptTokens := none, usageCompletionTokens := none }

example : (transformOpenAIToAnthropicResponse bodyLen).stop_reason = "max_tokens" := by decide
example : (transformOpenAIToAnthropicResponse bodyEmpty).stop_reason = "error" := by decide
example : claimStopReasonTable none = "end_turn" := by decide

end fixtures

namespace NewMidnight

theorem mem_of_mem_dedupFirstAux {α : Type} [DecidableEq α] {x : α} :
    ∀ (l seen : List α), x ∈ dedupFirstAux seen l → x ∈ l ∧ x ∉ seen := by
  intro l
  induction l with
  | nil => intro seen h; simp [dedupFirstAux] at h
  | cons a t ih =>
    intro seen h
    by_cases ha : a ∈ seen
    · simp only [dedupFirstAux, if_pos ha] at h
      rcases ih seen h with ⟨hx, hs⟩
      exact ⟨List.mem_cons_of_mem _ hx, hs⟩
    · simp only [dedupFirstAux, if_neg ha, List.mem_cons] at h
      rcases h with rfl | h
      · exact ⟨List.mem_cons_self _ _, ha⟩
      · rcases ih _ h with ⟨hx, hs⟩
        refine ⟨List.mem_cons_of_mem _ hx, fun hseen => hs (List.mem_cons_of_mem _ hseen)⟩

theorem nodup_dedupFirstAux {α : Type} [DecidableEq α] :
    ∀ (l seen : List α), (dedupFirstAux seen l).Nodup := by
  intro l
  induction l with
  | nil => intro seen; simp [dedupFirstAux]
  | cons a t ih =>
    intro seen
    by_cases ha : a ∈ seen
    · simpa only [dedupFirstAux, if_pos ha] using ih seen
    · simp only [dedupFirstAux, if_neg ha]
      refine List.nodup_cons.mpr ⟨fun hmem => ?_, ih _⟩
      exact (mem_of_mem_dedupFirstAux _ _ hmem).2 (List.mem_cons_self a seen)

theorem dedupFirstAux_append {α : Type} [DecidableEq α] :
    ∀ (A seen B : List α), ∃ seen',
      dedupFirstAux seen (A ++ B) = dedupFirstAux seen A ++ dedupFirstAux seen' B ∧
      ∀ x, x ∈ seen' ↔ x ∈ A ∨ x ∈ seen := by
  intro A
  induction A with
  | nil =>
    intro seen B
    exact ⟨seen, by simp [dedupFirstAux], by simp⟩
  | cons a t ih =>
    intro seen B
    by_cases ha : a ∈ seen
    · rcases ih seen B with ⟨s', he, hiff⟩
      refine ⟨s', ?_, fun x => ?_⟩
      · simpa only [List.cons_append, dedupFirstAux, if_pos ha] using he
      · rw [hiff x]
        constructor
        · rintro (h | h)
          · exact Or.inl (List.mem_cons_of_mem _ h)
          · exact Or.inr h
        · rintro (h | h)
          · rcases List.mem_cons.mp h with rfl | h2
            · exact Or.inr ha
            · exact Or.inl h2
          · exact Or.inr h
    · rcases ih (a :: seen) B with ⟨s', he, hiff⟩
      refine ⟨s', ?_, fun x => ?_⟩
      · simp only [List.cons_append, dedupFirstAux, if_neg ha, List.append_eq]
        rw [he]
      · rw [hiff x]
        simp only [List.mem_cons]
        tauto

theorem mem_of_mem_dedupFirst {α : Type} [DecidableEq α] {x : α} {l : List α}
    (h : x ∈ dedupFirst l) : x ∈ l :=
  (mem_of_mem_dedupFirstAux l [] h).1

theorem nodup_dedupFirst {α : Type} [DecidableEq α] (l : List α) :
    (dedupFirst l).Nodup :=
  nodup_dedupFirstAux l []

namespace Provider

theorem mem_insertByLastUsed {x k : OpenRouterKey} :
    ∀ {l : List OpenRouterKey}, x ∈ insertByLastUsed k l ↔ x = k ∨ x ∈ l := by
  intro l
  induction l with
  | nil => simp [insertByLastUsed]
  | cons a t ih =>
    by_cases h : k.lastUsed ≤ a.lastUsed
    · simp [insertByLastUsed, if_pos h]
    · simp only [insertByLastUsed, if_neg h, List.mem_cons, ih]
      tauto

theorem mem_sortByLastUsed {x : OpenRouterKey} :
    ∀ {l : List OpenRouterKey}, x ∈ sortByLastUsed l ↔ x ∈ l := by
  intro l
  induction l with
  | nil => simp [sortByLastUsed]
  | cons a t ih =>
    simp only [sortByLastUsed, mem_insertByLastUsed, ih, List.mem_cons]

theorem mem_of_mem_prioritizeKeys {now : Int} {ks : List OpenRouterKey}
    {x : OpenRouterKey} (h : x ∈ prioritizeKeys now ks) : x ∈ ks := by
  rcases List.mem_append.mp h with h1 | h1
  · exact (List.mem_filter.mp (mem_sortByLastUsed.mp h1)).1
  · exact (List.mem_filter.mp (mem_sortByLastUsed.mp h1)).1

end Provider

namespace Resolver

theorem policyCheck_cases (m : ModelMetadata) (cfg : ResolveConfig) :
    policyCheck m cfg = (some m, none) ∨
    policyCheck m cfg = (none, some "prohibit_paid") ∨
    policyCheck m cfg = (none, some "prohibit_moderated") := by
  simp only [policyCheck]
  split_ifs <;> simp

/-- C1, counterexample: on a catalogue holding a gpt-4o entry and a free
llama entry, the input totally-unknown-model produces an empty fuzzy
candidate set and `resolveModel` fails with the error kind not_found, not
ambiguous as the claim states. -/
theorem fuzzy_failure_kind_counterexample :
    resolveModel "totally-unknown-model" [[gpt4o, freeModel]] cfgDefault =
      (none, some "not_found") ∧
    fuzzyCandidates "totally-unknown-model" [[gpt4o, freeModel]] = [] ∧
    ("not_found" : String) ≠ "ambiguous" := by decide

/-- C1, amended: whenever the exact-id lookup fails and the fuzzy search
yields either zero candidates or several candidates none of which wins the
exact-suffix or normalized-suffix tiebreak, `resolveModel` fails with the
single error kind not_found, leaving the zero-candidate and many-candidate
cases indistinguishable to callers. -/
theorem fuzzy_failure_yields_not_found (input : String)
    (wl : List (List ModelMetadata)) (cfg : ResolveConfig)
    (hexact : wl.flatten.find? (fun m => lowerStr m.id == lowerStr input) = none)
    (hbest : fuzzyBest input wl = none)
    (hcount : (fuzzyCandidates input wl).length ≠ 1) :
    resolveModel input wl cfg = (none, some "not_found") := by
  simp only [resolveModel, hexact, hbest]
  rcases hc : fuzzyCandidates input wl with _ | ⟨m, _ | ⟨m2, t⟩⟩
  · rfl
  · exact absurd (by simp [hc]) hcount
  · rfl

/-- Witness for the amended C1 theorem at a concrete zero-candidate
input. -/
theorem fuzzy_failure_yields_not_found_witness :
    resolveModel "totally-unknown-input" [[gpt4o, freeModel]] cfgDefault =
      (none, some "not_found") :=
  fuzzy_failure_yields_not_found "totally-unknown-input" [[gpt4o, freeModel]] cfgDefault
    (by decide) (by decide) (by decide)

/-- C6: an input equal, case-insensitively, to the full id of some
catalogued model resolves through the exact match and the policy check
only: the result is a model with that id or one of the two policy errors;
the fuzzy search is never entered and no not_found or ambiguous failure
can arise. -/
theorem exact_match_skips_fuzzy (input : String) (wl : List (List ModelMetadata))
    (cfg : ResolveConfig)
    (hexact : wl.flatten.any (fun m => lowerStr m.id == lowerStr input) = true) :
    ∃ m, m ∈ wl.flatten ∧ lowerStr m.id = lowerStr input ∧
      resolveModel input wl cfg = policyCheck m cfg ∧
      (resolveModel input wl cfg = (some m, none) ∨
       resolveModel input wl cfg = (none, some "prohibit_paid") ∨
       resolveModel input wl cfg = (none, some "prohibit_moderated")) := by
  have hsome : (wl.flatten.find? (fun m => lowerStr m.id == lowerStr input)).isSome := by
    rw [List.find?_isSome]
    rcases List.any_eq_true.mp hexact with ⟨m, hm, hp⟩
    exact ⟨m, hm, hp⟩
  rcases ho : wl.flatten.find? (fun m => lowerStr m.id == lowerStr input) with _ | m
  · rw [ho] at hsome
    simp at hsome
  · have hr : resolveModel input wl cfg = policyCheck m cfg := by
      simp only [resolveModel, ho]
    have hp : lowerStr m.id = lowerStr input := by
      have h2 := List.find?_some ho
      simpa using h2
    refine ⟨m, List.mem_of_find?_eq_some ho, hp, hr, ?_⟩
    rw [hr]
    exact policyCheck_cases m cfg

/-- Witness for C6 on a concrete catalogue with an exact id match in mixed
case. -/
theorem exact_match_skips_fuzzy_witness :
    ∃ m, m ∈ [[gpt4o, freeModel]].flatten ∧
      lowerStr m.id = lowerStr "OPENAI/GPT-4O" ∧
      resolveModel "OPENAI/GPT-4O" [[gpt4o, freeModel]] cfgDefault =
        policyCheck m cfgDefault ∧
      (resolveModel "OPENAI/GPT-4O" [[gpt4o, freeModel]] cfgDefault = (some m, none) ∨
       resolveModel "OPENAI/GPT-4O" [[gpt4o, freeModel]] cfgDefault =
         (none, some "prohibit_paid") ∨
       resolveModel "OPENAI/GPT-4O" [[gpt4o, freeModel]] cfgDefault =
         (none, some "prohibit_moderated")) :=
  exact_match_skips_fuzzy "OPENAI/GPT-4O" [[gpt4o, freeModel]] cfgDefault (by decide)

end Resolver

namespace Provider

/-- C2: a successful get for a paid model id (one without the free
suffix) returns a credential that is neither deadkey nor unfunded: its
tier is not deadkey and it has positive balance or the unlimited tier.
Equivalently, every credential the paid filter retains satisfies the same
property. -/
theorem paid_get_excludes_unfunded (now : Int) (model : String)
    (keys store : List OpenRouterKey) (k : OpenRouterKey)
    (hpaid : strEndsWith model ":free" = false)
    (hget : get now model keys = Except.ok (k, store)) :
    (k.tier ≠ Tier.deadkey ∧ (k.balance > 0 ∨ k.tier = Tier.unlimited)) ∧
    ∀ x : OpenRouterKey, paidKeyFilter x = true →
      x.tier ≠ Tier.deadkey ∧ (x.balance > 0 ∨ x.tier = Tier.unlimited) := by
  have hfilter : ∀ x : OpenRouterKey, paidKeyFilter x = true →
      x.tier ≠ Tier.deadkey ∧ (x.balance > 0 ∨ x.tier = Tier.unlimited) := by
    intro x hx
    simp only [paidKeyFilter] at hx
    split_ifs at hx with h1 h2 h3
    · exact ⟨h1, Or.inl h2⟩
    · exact ⟨h1, Or.inr h3⟩
  refine ⟨?_, hfilter⟩
  simp only [get, hpaid, Bool.false_eq_true, if_false] at hget
  split at hget
  · exact absurd hget (by simp)
  · split at hget
    · exact absurd hget (by simp)
    · split at hget
      next heq => exact absurd hget (by simp)
      next sel rest heq =>
        simp only [Except.ok.injEq, Prod.mk.injEq] at hget
        obtain ⟨hk, _⟩ := hget
        have hsel : sel ∈ (keys.filter fun x => !x.isDisabled && !x.isRevoked).filter
            paidKeyFilter :=
          mem_of_mem_prioritizeKeys (heq ▸ List.mem_cons_self sel rest)
        have hp := (List.mem_filter.mp hsel).2
        rcases hfilter sel hp with ⟨h1, h2⟩
        rw [← hk]
        exact ⟨h1, h2⟩

/-- Witness for C2 at a concrete pool of one dead-ish restricted
credential and one funded limited credential. -/
theorem paid_get_excludes_unfunded_witness :
    (({ k1 with lastUsed := 1000, rateLimitedUntil := 1500 } : OpenRouterKey).tier ≠
        Tier.deadkey ∧
      (({ k1 with lastUsed := 1000, rateLimitedUntil := 1500 } : OpenRouterKey).balance > 0 ∨
        ({ k1 with lastUsed := 1000, rateLimitedUntil := 1500 } : OpenRouterKey).tier =
          Tier.unlimited)) ∧
    ∀ x : OpenRouterKey, paidKeyFilter x = true →
      x.tier ≠ Tier.deadkey ∧ (x.balance > 0 ∨ x.tier = Tier.unlimited) :=
  paid_get_excludes_unfunded 1000 "openai/gpt-4o" [k0, k1]
    [k0, { k1 with lastUsed := 1000, rateLimitedUntil := 1500 }]
    { k1 with lastUsed := 1000, rateLimitedUntil := 1500 }
    (by decide) (by decide)

/-- C8: a successful get mutates exactly the chosen stored credential,
through touchKey, which sets lastUsed to now and raises rateLimitedUntil
to at least now plus the reuse delay while copying every other field; the
copy handed back already carries both mutations, and every credential
with a different hash is still in the store unchanged.  The distinct-hash
hypothesis mirrors the deduplicated secret list the provider is
constructed from; it makes the by-hash update of the embedding coincide
with the in-place object mutation of the source. -/
theorem get_touches_only_selected (now : Int) (model : String)
    (keys store : List OpenRouterKey) (k : OpenRouterKey)
    (_hhash : (keys.map (fun x => x.hash)).Nodup)
    (hget : get now model keys = Except.ok (k, store)) :
    ∃ sel, sel ∈ keys ∧ k = touchKey now sel ∧
      store = applyGetEffects now sel.hash keys ∧
      ∀ x ∈ keys, x.hash ≠ sel.hash → x ∈ store := by
  have hframe : ∀ (sel : OpenRouterKey), ∀ x ∈ keys, x.hash ≠ sel.hash →
      x ∈ applyGetEffects now sel.hash keys := by
    intro sel x hx hne
    simp only [applyGetEffects]
    have h2 : (if x.hash = sel.hash then touchKey now x else x) ∈
        keys.map (fun y => if y.hash = sel.hash then touchKey now y else y) :=
      List.mem_map_of_mem _ hx
    rwa [if_neg hne] at h2
  simp only [get] at hget
  split at hget
  · exact absurd hget (by simp)
  · split at hget
    · split at hget
      next heq => exact absurd hget (by simp)
      next sel rest heq =>
        simp only [Except.ok.injEq, Prod.mk.injEq] at hget
        obtain ⟨hk, hs⟩ := hget
        have hsel : sel ∈ keys :=
          (List.mem_filter.mp (List.mem_filter.mp
            (mem_of_mem_prioritizeKeys (heq ▸ List.mem_cons_self sel rest))).1).1
        exact ⟨sel, hsel, hk.symm, hs.symm, fun x hx hne => hs ▸ hframe sel x hx hne⟩
    · split at hget
      · exact absurd hget (by simp)
      · split at hget
        next heq => exact absurd hget (by simp)
        next sel rest heq =>
          simp only [Except.ok.injEq, Prod.mk.injEq] at hget
          obtain ⟨hk, hs⟩ := hget
          have hsel : sel ∈ keys :=
            (List.mem_filter.mp (List.mem_filter.mp
              (mem_of_mem_prioritizeKeys (heq ▸ List.mem_cons_self sel rest))).1).1
          exact ⟨sel, hsel, hk.symm, hs.symm, fun x hx hne => hs ▸ hframe sel x hx hne⟩

/-- Witness for C8 at the same concrete pool. -/
theorem get_touches_only_selected_witness :
    ∃ sel, sel ∈ [k0, k1] ∧
      ({ k1 with lastUsed := 1000, rateLimitedUntil := 1500 } : OpenRouterKey) =
        touchKey 1000 sel ∧
      [k0, { k1 with lastUsed := 1000, rateLimitedUntil := 1500 }] =
        applyGetEffects 1000 sel.hash [k0, k1] ∧
      ∀ x ∈ [k0, k1], x.hash ≠ sel.hash →
        x ∈ [k0, { k1 with lastUsed := 1000, rateLimitedUntil := 1500 }] :=
  get_touches_only_selected 1000 "openai/gpt-4o" [k0, k1]
    [k0, { k1 with lastUsed := 1000, rateLimitedUntil := 1500 }]
    { k1 with lastUsed := 1000, rateLimitedUntil := 1500 }
    (by decide) (by decide)

end Provider

namespace Checker

open Provider

/-- C3: on a successful probe the stored tier follows the source
derivation order exactly, with the balance taken from probeBalance: limit
reached gives deadkey; else positive balance gives unlimited on a null
credit limit and limited otherwise; else the free-tier flag gives
restricted; else deadkey.  The same update writes
isDisabled = (tier == deadkey) and clears isRevoked. -/
theorem probe_tier_derivation (now usage rpm : Int) (isFreeTier : Bool)
    (creditsResult limit : Option Int) (key : OpenRouterKey) :
    ((limitReached limit usage = true →
        (testKeySuccess now key usage limit isFreeTier rpm creditsResult).tier =
          Tier.deadkey) ∧
     (limitReached limit usage = false →
        0 < probeBalance creditsResult limit usage →
        (testKeySuccess now key usage limit isFreeTier rpm creditsResult).tier =
          (match limit with | none => Tier.unlimited | some _ => Tier.limited)) ∧
     (limitReached limit usage = false →
        probeBalance creditsResult limit usage ≤ 0 → isFreeTier = true →
        (testKeySuccess now key usage limit isFreeTier rpm creditsResult).tier =
          Tier.restricted) ∧
     (limitReached limit usage = false →
        probeBalance creditsResult limit usage ≤ 0 → isFreeTier = false →
        (testKeySuccess now key usage limit isFreeTier rpm creditsResult).tier =
          Tier.deadkey)) ∧
    (testKeySuccess now key usage limit isFreeTier rpm creditsResult).isDisabled =
      decide ((testKeySuccess now key usage limit isFreeTier rpm creditsResult).tier =
        Tier.deadkey) ∧
    (testKeySuccess now key usage limit isFreeTier rpm creditsResult).isRevoked =
      false := by
  refine ⟨⟨?_, ?_, ?_, ?_⟩, rfl, rfl⟩
  · intro h
    simp [testKeySuccess, probeTier, h]
  · intro h hb
    simp [testKeySuccess, probeTier, h, hb]
  · intro h hb hf
    have hnb : ¬ 0 < probeBalance creditsResult limit usage := not_lt.mpr hb
    simp [testKeySuccess, probeTier, h, hnb, hf]
  · intro h hb hf
    have hnb : ¬ 0 < probeBalance creditsResult limit usage := not_lt.mpr hb
    simp [testKeySuccess, probeTier, h, hnb, hf]

/-- Witness for C3 in the limited branch: limit 10, usage 3, fetched
balance 5. -/
theorem probe_tier_derivation_witness :
    (testKeySuccess 5 k0 3 (some 10) false 0 (some 5)).tier = Tier.limited :=
  (probe_tier_derivation 5 3 0 false (some 5) (some 10) k0).1.2.1 (by decide) (by decide)

/-- C4: when the balance lookup fails, the probe falls back to the
sentinel 999 on a null credit limit, which makes the tier unlimited, and
to max 0 (limit minus usage) when a credit limit is known. -/
theorem probe_fallback_balance (now usage rpm : Int) (isFreeTier : Bool)
    (key : OpenRouterKey) :
    ((testKeySuccess now key usage none isFreeTier rpm none).balance = 999 ∧
     (testKeySuccess now key usage none isFreeTier rpm none).tier = Tier.unlimited) ∧
    ∀ l : Int, (testKeySuccess now key usage (some l) isFreeTier rpm none).balance =
      max 0 (l - usage) := by
  refine ⟨⟨rfl, ?_⟩, fun l => rfl⟩
  simp [testKeySuccess, probeTier, probeBalance, limitReached]

/-- C5: every probe update preserves the invariant that a deadkey tier
comes with a disabled credential: the successful-probe update, the 401
update and the 402 update all write states in which tier deadkey implies
isDisabled. -/
theorem probe_update_deadkey_disabled (now usage rpm : Int) (isFreeTier : Bool)
    (creditsResult limit : Option Int) (key : OpenRouterKey) :
    ((testKeySuccess now key usage limit isFreeTier rpm creditsResult).tier =
        Tier.deadkey →
      (testKeySuccess now key usage limit isFreeTier rpm creditsResult).isDisabled =
        true) ∧
    ((handle401 now key).tier = Tier.deadkey → (handle401 now key).isDisabled = true) ∧
    ((handle402 now key).tier = Tier.deadkey → (handle402 now key).isDisabled = true) := by
  refine ⟨fun h => ?_, fun _ => rfl, fun _ => rfl⟩
  have hd : (testKeySuccess now key usage limit isFreeTier rpm creditsResult).isDisabled =
      decide ((testKeySuccess now key usage limit isFreeTier rpm creditsResult).tier =
        Tier.deadkey) := rfl
  rw [hd, h]
  simp

/-- Witness for C5 at a probe that exhausts the credit limit. -/
theorem probe_update_deadkey_disabled_witness :
    (testKeySuccess 5 k0 12 (some 10) false 0 (some 5)).isDisabled = true :=
  (probe_update_deadkey_disabled 5 12 0 false (some 5) (some 10) k0).1 (by decide)

end Checker

namespace GoogleTransform

/-- C7: the synthesized stopSequences list holds at most five entries,
holds no duplicate, and decomposes into the retained caller-supplied stop
sequences followed by the synthesized per-name entries, each formatted as
a newline, a derived name and a colon. -/
theorem stop_sequences_shape (messages : List OAIMessage) (callerStop : List String) :
    (googleStopSequences messages callerStop).length ≤ 5 ∧
    (googleStopSequences messages callerStop).Nodup ∧
    ∃ cs ss, googleStopSequences messages callerStop = cs ++ ss ∧
      (∀ x ∈ cs, x ∈ callerStop) ∧
      (∀ x ∈ ss, x ∉ callerStop ∧ ∃ m ∈ messages, x = "\n" ++ deriveName m ++ ":") := by
  have hdef : googleStopSequences messages callerStop =
      (dedupFirst (callerStop ++ (dedupFirst (messages.map deriveName)).map
        (fun n => "\n" ++ n ++ ":"))).take 5 := rfl
  obtain ⟨s', he, hiff⟩ := dedupFirstAux_append callerStop []
    ((dedupFirst (messages.map deriveName)).map (fun n => "\n" ++ n ++ ":"))
  refine ⟨?_, ?_, ?_⟩
  · rw [hdef]
    exact List.length_take_le 5 _
  · rw [hdef]
    exact (List.take_sublist 5 _).nodup (nodup_dedupFirst _)
  · refine ⟨(dedupFirst callerStop).take 5,
      (dedupFirstAux s' ((dedupFirst (messages.map deriveName)).map
        (fun n => "\n" ++ n ++ ":"))).take (5 - (dedupFirst callerStop).length),
      ?_, ?_, ?_⟩
    · rw [hdef]
      unfold dedupFirst at he ⊢
      rw [he, List.take_append_eq_append_take]
    · intro x hx
      exact mem_of_mem_dedupFirst (List.take_subset _ _ hx)
    · intro x hx
      obtain ⟨hmem, hnot⟩ := mem_of_mem_dedupFirstAux _ _ (List.take_subset _ _ hx)
      refine ⟨fun hc => hnot ((hiff x).mpr (Or.inl hc)), ?_⟩
      obtain ⟨n, hn, hfmt⟩ := List.mem_map.mp hmem
      obtain ⟨m, hm, hname⟩ := List.mem_map.mp (mem_of_mem_dedupFirst hn)
      exact ⟨m, hm, by rw [← hfmt, ← hname]⟩

/-- Witness for C7 on a concrete message list and caller stop list. -/
theorem stop_sequences_shape_witness :
    (googleStopSequences [msgU, msgA, msgN] ["a", "b", "a"]).length ≤ 5 :=
  (stop_sequences_shape [msgU, msgA, msgN] ["a", "b", "a"]).1

end GoogleTransform

namespace AnthropicTransform

/-- C9, counterexample: a canonical response body with no choices (its
finish reason therefore missing) is transformed to stop_reason error,
which lies outside the image of the claimed fixed table; the claim says a
missing finish reason maps to end_turn. -/
theorem anthropic_stop_reason_counterexample :
    (transformOpenAIToAnthropicResponse bodyEmpty).stop_reason = "error" ∧
    ("error" : String) ≠ "end_turn" ∧
    ("error" : String) ≠ "max_tokens" ∧
    ("error" : String) ≠ "tool_use" := by decide

/-- C9, amended: for every canonical response body containing at least
one choice, the emitted stop_reason is exactly the image of the first
choice finish reason under the fixed table (length to max_tokens, stop to
end_turn, tool_calls to tool_use, anything else or missing to end_turn);
a body with no choices is instead given the out-of-table stop_reason
error. -/
theorem anthropic_stop_reason_table (body : OAIResponseBody) (c : OAIChoice)
    (cs : List OAIChoice) (h : body.choices = c :: cs) :
    (transformOpenAIToAnthropicResponse body).stop_reason =
      claimStopReasonTable c.finish_reason := by
  simp only [transformOpenAIToAnthropicResponse, claimStopReasonTable, h]
  split_ifs <;> simp_all

/-- Witness for the amended C9 theorem on a concrete one-choice body with
finish reason length. -/
theorem anthropic_stop_reason_table_witness :
    (transformOpenAIToAnthropicResponse bodyLen).stop_reason =
      claimStopReasonTable (some "length") :=
  anthropic_stop_reason_table bodyLen choiceLen [] rfl

end AnthropicTransform

namespace GoogleTransform

/-- C10: the parsed maxOutputTokens never exceeds the configured
per-service maximum, and an absent field defaults to 16 before the clamp,
so a caller omitting the field gets at most 16 output tokens. -/
theorem google_max_output_tokens_clamped (raw : Option Int) (outputMax : Int) :
    parseMaxOutputTokens raw outputMax ≤ outputMax ∧
    parseMaxOutputTokens none outputMax = min 16 outputMax ∧
    parseMaxOutputTokens none outputMax ≤ 16 :=
  ⟨min_le_right _ _, rfl, min_le_left _ _⟩

end GoogleTransform

end NewMidnight
